import Mathlib

/-!
Verification of the stream-resolution engine of `api/proxy.ts`.

This file shallowly embeds the engine: the bounded TTL cache (`getCached` /
`setCache`), the per-host extractors, and the resolution orchestrator
(`resolveLink`).  External effects are passed in explicitly:

* the network text/JSON fetch primitives and the cheerio HTML query
  primitive (both "consumed, not owned" interfaces of the engine) become
  fields of an `Env` record of oracle functions;
* `Date.now()` and `Math.random()` become explicit numeric/string inputs;
* each JavaScript regular expression used by the source is embedded as a
  hand-written scanner over `List Char` with the same match semantics
  (leftmost match, greedy character classes), named after its use site.

All definitions are executable, so theorems can be instantiated on concrete
inputs and checked by `decide`.
-/

/-- ASCII case fold; agrees with JS `toLowerCase` on the ASCII host markers
and file suffixes this code compares (non-ASCII code points are irrelevant
to those comparisons). -/
def asciiLower (c : Char) : Char :=
  if 'A' ≤ c ∧ c ≤ 'Z' then Char.ofNat (c.toNat + 32) else c

/-- JS `String.prototype.toLowerCase`, restricted to ASCII folding. -/
def jsToLower (s : String) : String :=
  String.mk (s.data.map asciiLower)

/-- `listStarts pat l` is true when `pat` is a prefix of `l`. -/
def listStarts : List Char → List Char → Bool
  | [], _ => true
  | _ :: _, [] => false
  | p :: ps, c :: cs => p == c && listStarts ps cs

/-- JS `String.prototype.startsWith`. -/
def jsStarts (s pat : String) : Bool :=
  listStarts pat.data s.data

/-- Consume the literal `pat` at the head of `l`, returning the remainder. -/
def litMatch : List Char → List Char → Option (List Char)
  | [], l => some l
  | _ :: _, [] => none
  | p :: ps, c :: cs => if c == p then litMatch ps cs else none

/-- Case-insensitive variant of `litMatch` (for regexes with the `/i` flag). -/
def litMatchCI : List Char → List Char → Option (List Char)
  | [], l => some l
  | _ :: _, [] => none
  | p :: ps, c :: cs => if asciiLower c == asciiLower p then litMatchCI ps cs else none

/-- `listIncl pat l` is true when `pat` occurs as a contiguous run in `l`. -/
def listIncl (pat : List Char) : List Char → Bool
  | [] => listStarts pat []
  | c :: rest => listStarts pat (c :: rest) || listIncl pat rest

/-- JS `String.prototype.includes` (case-sensitive substring test). -/
def strIncludes (s pat : String) : Bool :=
  listIncl pat.data s.data

/-- Case-insensitive substring test, for `/.../i` regex substring checks. -/
def ciIncludes (s pat : String) : Bool :=
  strIncludes (jsToLower s) (jsToLower pat)

/-- Leftmost-match driver: try the pattern `f` at every suffix, left to
right, as JS `String.prototype.match` does with an unanchored regex.  (No
embedded pattern can match the empty suffix, so the empty tail is skipped.) -/
def scanFirst {α : Type} (f : List Char → Option α) : List Char → Option α
  | [] => none
  | c :: rest =>
    match f (c :: rest) with
    | some a => some a
    | none => scanFirst f rest

/-- `\s*` : drop leading whitespace. -/
def wsDrop (l : List Char) : List Char :=
  l.dropWhile Char.isWhitespace

/-- The regex class `['"]`. -/
def quoteChar (c : Char) : Bool :=
  c == '"' || c == '\x27'

/-- The regex class `[a-zA-Z0-9]`. -/
def alnumChar (c : Char) : Bool :=
  ('a' ≤ c ∧ c ≤ 'z') ∨ ('A' ≤ c ∧ c ≤ 'Z') ∨ ('0' ≤ c ∧ c ≤ '9')

/-- The regex class `[^\s"'<>]` used in the bare-media-URL scans. -/
def urlChar (c : Char) : Bool :=
  !(c.isWhitespace || c == '"' || c == '\x27' || c == '<' || c == '>')

/-- First piece of a `firstSome`-style alternation over a list. -/
def firstSome {α β : Type} (f : α → Option β) : List α → Option β
  | [] => none
  | a :: rest =>
    match f a with
    | some b => some b
    | none => firstSome f rest

/-- Base64 value of one alphabet character. -/
def b64Val (c : Char) : Option Nat :=
  if 'A' ≤ c ∧ c ≤ 'Z' then some (c.toNat - 'A'.toNat)
  else if 'a' ≤ c ∧ c ≤ 'z' then some (c.toNat - 'a'.toNat + 26)
  else if '0' ≤ c ∧ c ≤ '9' then some (c.toNat - '0'.toNat + 52)
  else if c == '+' then some 62
  else if c == '/' then some 63
  else none

/-- Decode base64 characters in groups of four (a trailing group of two or
three characters yields one or two bytes; a dangling single character is an
error, as in `atob`). -/
def b64Chunks : List Char → Option (List Nat)
  | [] => some []
  | [_] => none
  | [a, b] =>
    match b64Val a, b64Val b with
    | some va, some vb => some [va * 4 + vb / 16]
    | _, _ => none
  | [a, b, c] =>
    match b64Val a, b64Val b, b64Val c with
    | some va, some vb, some vc => some [va * 4 + vb / 16, (vb % 16) * 16 + vc / 4]
    | _, _, _ => none
  | a :: b :: c :: d :: rest =>
    match b64Val a, b64Val b, b64Val c, b64Val d, b64Chunks rest with
    | some va, some vb, some vc, some vd, some tail =>
      some ((va * 4 + vb / 16) :: ((vb % 16) * 16 + vc / 4) :: ((vc % 4) * 64 + vd) :: tail)
    | _, _, _, _, _ => none

/-- Drop one trailing `=` padding character. -/
def dropTrailEq (l : List Char) : List Char :=
  match l.reverse with
  | '=' :: r => r.reverse
  | _ => l

/-- The source's `decodeBase64`: `atob` wrapped so that any decoding error
yields `""` (the `catch` branch).  Whitespace is stripped and up to two
trailing `=` are forgiven, as `atob` does; decoded bytes become Latin-1
characters. -/
def decodeBase64 (s : String) : String :=
  let cs := s.data.filter (fun c => !c.isWhitespace)
  let cs := if cs.length % 4 == 0 then dropTrailEq (dropTrailEq cs) else cs
  match b64Chunks cs with
  | some bytes => String.mk (bytes.map (fun n => Char.ofNat n))
  | none => ""

/-! ### Embedded regex patterns, one per `match` call in the source -/

/-- pixeldrain: `\/u\/([a-zA-Z0-9]+)` — capture the id after `/u/`. -/
def pdUPat (l : List Char) : Option String :=
  match litMatch "/u/".data l with
  | none => none
  | some r =>
    let run := r.takeWhile alnumChar
    if run.isEmpty then none else some (String.mk run)

/-- pixeldrain: `\/api\/file\/([a-zA-Z0-9]+)`. -/
def pdApiPat (l : List Char) : Option String :=
  match litMatch "/api/file/".data l with
  | none => none
  | some r =>
    let run := r.takeWhile alnumChar
    if run.isEmpty then none else some (String.mk run)

/-- The source's two-step file-id derivation:
`url.match(/\/u\/.../)?.[1] || url.match(/\/api\/file\/.../)?.[1]`. -/
def pdFileId (url : String) : Option String :=
  match scanFirst pdUPat url.data with
  | some fid => some fid
  | none => scanFirst pdApiPat url.data

/-- streamtape: `getElementById\('robotlink'\)\.innerHTML\s*=\s*['"]([^'"]+)['"]`. -/
def stRobotPat (l : List Char) : Option String :=
  match litMatch "getElementById(\x27robotlink\x27).innerHTML".data l with
  | none => none
  | some r1 =>
    match wsDrop r1 with
    | '=' :: r2 =>
      match wsDrop r2 with
      | q :: r3 =>
        if quoteChar q then
          let run := r3.takeWhile (fun c => !quoteChar c)
          let rest := r3.dropWhile (fun c => !quoteChar c)
          if run.isEmpty || rest.isEmpty then none else some (String.mk run)
        else none
      | [] => none
    | _ => none

/-- streamtape: `token=([^&'"]+)`. -/
def stTokenPat (l : List Char) : Option String :=
  match litMatch "token=".data l with
  | none => none
  | some r =>
    let run := r.takeWhile (fun c => !(c == '&' || quoteChar c))
    if run.isEmpty then none else some (String.mk run)

/-- streamtape fallback:
`document\.getElementById\('norobotlink'\)\.innerHTML\s*=\s*['"](\/\/[^'"]+)['"]\s*\+\s*\('([^']+)'\)`. -/
def stAltPat (l : List Char) : Option (String × String) :=
  match litMatch "document.getElementById(\x27norobotlink\x27).innerHTML".data l with
  | none => none
  | some r1 =>
    match wsDrop r1 with
    | '=' :: r2 =>
      match wsDrop r2 with
      | q :: '/' :: '/' :: r3 =>
        if quoteChar q then
          let run := r3.takeWhile (fun c => !quoteChar c)
          let rest := r3.dropWhile (fun c => !quoteChar c)
          if run.isEmpty then none
          else
            match rest with
            | q2 :: r4 =>
              if quoteChar q2 then
                match wsDrop r4 with
                | '+' :: r5 =>
                  match wsDrop r5 with
                  | '(' :: '\x27' :: r6 =>
                    let run2 := r6.takeWhile (fun c => !(c == '\x27'))
                    let rest2 := r6.dropWhile (fun c => !(c == '\x27'))
                    if run2.isEmpty then none
                    else
                      match rest2 with
                      | '\x27' :: ')' :: _ =>
                        some (String.mk ('/' :: '/' :: run), String.mk run2)
                      | _ => none
                  | _ => none
                | _ => none
              else none
            | [] => none
        else none
      | _ => none
    | _ => none

/-- doodstream: `\/pass_md5\/([^'"]+)`. -/
def ddPassPat (l : List Char) : Option String :=
  match litMatch "/pass_md5/".data l with
  | none => none
  | some r =>
    let run := r.takeWhile (fun c => !quoteChar c)
    if run.isEmpty then none else some (String.mk run)

/-- The alternation `(wf|cx|la|pm|so|ws|sh|to|re|yt)` of the doodstream
domain-normalisation regex. -/
def doodTlds : List String :=
  ["wf", "cx", "la", "pm", "so", "ws", "sh", "to", "re", "yt"]

/-- Replace the first occurrence of `dood.<tld>` with `dood.li`
(`url.replace(/dood\.(wf|...|yt)/, "dood.li")`, no `g` flag). -/
def doodReplace : List Char → List Char
  | [] => []
  | c :: rest =>
    match
      match litMatch "dood.".data (c :: rest) with
      | none => none
      | some r => firstSome (fun t => litMatch (String.data t) r) doodTlds
    with
    | some after => "dood.li".data ++ after
    | none => c :: doodReplace rest

def doodNormalize (url : String) : String :=
  String.mk (doodReplace url.data)

/-- JS `s.split("/").pop()`, total because `split` never yields an empty
array. -/
def lastPiece (s : String) : String :=
  (s.splitOn "/").getLast?.getD ""

/-- JS `s.split(sep)[1]` (used only when `sep` occurs in `s`). -/
def splitIdx1 (s sep : String) : String :=
  ((s.splitOn sep).get? 1).getD ""

/-- `href.split("/").pop()?.split("?")[0]`, the pixeldrain token derivation
shared by the hubcloud and gdflix extractors. -/
def pdToken (href : String) : String :=
  (((lastPiece href).splitOn "?").head?.getD "")

/-- Whether `ext` occurs (case-insensitively, due to `/i`) in `run` at an
index ≥ 1 — the backtracking residue of `[^...]+\.ext[^...]*` inside a
maximal character-class run. -/
def runHasExtAfterFirst (run : List Char) (ext : String) : Bool :=
  ciIncludes (String.mk (run.drop 1)) ext

/-- Length of the `https?:\/\/` scheme match at the head of `l` (with `/i`),
`none` when it does not match. -/
def schemeLen (l : List Char) : Option Nat :=
  match litMatchCI "http".data l with
  | none => none
  | some r =>
    match r with
    | c :: r2 =>
      if c == 's' || c == 'S' then
        if (litMatch "://".data r2).isSome then some 8
        else if (litMatch "://".data r).isSome then some 7
        else none
      else if (litMatch "://".data r).isSome then some 7
      else none
    | [] => none

/-- Match `https?:\/\/[^\s"'<>]+\.(ext₁|...)[^\s"'<>]*` (flags `/i`) at the
head of `l`; returns the full match and the remainder after it.  Greedy
backtracking makes the full match exactly the scheme plus the maximal
`[^\s"'<>]` run, provided some `.extᵢ` occurs inside the run past its first
character. -/
def mediaUrlAt (exts : List String) (l : List Char) : Option (String × List Char) :=
  match schemeLen l with
  | none => none
  | some n =>
    let rest := l.drop n
    let run := rest.takeWhile urlChar
    let after := rest.dropWhile urlChar
    if !run.isEmpty && exts.any (fun e => runHasExtAfterFirst run ("." ++ e)) then
      some (String.mk (l.take n ++ run), after)
    else none

/-- All (non-overlapping, left-to-right) matches, as `String.match` with the
`/g` flag returns them.  The fuel equals the scanned length; every step
consumes at least one character, so the fuel never runs out. -/
def findAllAux (exts : List String) : Nat → List Char → List String
  | 0, _ => []
  | _, [] => []
  | fuel + 1, c :: rest =>
    match mediaUrlAt exts (c :: rest) with
    | some (m, after) => m :: findAllAux exts fuel after
    | none => findAllAux exts fuel rest

/-- `html.match(/https?:\/\/[^\s"'<>]+\.(mp4|mkv|m3u8)[^\s"'<>]*/gi) || []`. -/
def findAllMediaUrls (l : List Char) : List String :=
  findAllAux ["mp4", "mkv", "m3u8"] l.length l

/-- filemoon primary: `file\s*:\s*["']([^"']+\.m3u8[^"']*)` (flag `/i`).
The greedy capture is the whole quote-free run after the quote, accepted
exactly when `.m3u8` occurs in it past its first character. -/
def fmFile1Pat (l : List Char) : Option String :=
  match litMatchCI "file".data l with
  | none => none
  | some r1 =>
    match wsDrop r1 with
    | ':' :: r2 =>
      match wsDrop r2 with
      | q :: r3 =>
        if quoteChar q then
          let run := r3.takeWhile (fun c => !quoteChar c)
          if !run.isEmpty && runHasExtAfterFirst run ".m3u8" then some (String.mk run)
          else none
        else none
      | [] => none
    | _ => none

/-- filemoon secondary: `sources\s*:\s*\[\{file\s*:\s*["']([^"']+)` (flag `/i`). -/
def fmFile2Pat (l : List Char) : Option String :=
  match litMatchCI "sources".data l with
  | none => none
  | some r1 =>
    match wsDrop r1 with
    | ':' :: r2 =>
      match wsDrop r2 with
      | '[' :: '\x7b' :: r3 =>
        match litMatchCI "file".data r3 with
        | none => none
        | some r4 =>
          match wsDrop r4 with
          | ':' :: r5 =>
            match wsDrop r5 with
            | q :: r6 =>
              if quoteChar q then
                let run := r6.takeWhile (fun c => !quoteChar c)
                if run.isEmpty then none else some (String.mk run)
              else none
            | [] => none
          | _ => none
      | _ => none
    | _ => none

/-- mixdrop: `MDCore\.wurl\s*=\s*["']([^"']+)`. -/
def mdWurlPat (l : List Char) : Option String :=
  match litMatch "MDCore.wurl".data l with
  | none => none
  | some r1 =>
    match wsDrop r1 with
    | '=' :: r2 =>
      match wsDrop r2 with
      | q :: r3 =>
        if quoteChar q then
          let run := r3.takeWhile (fun c => !quoteChar c)
          if run.isEmpty then none else some (String.mk run)
        else none
      | [] => none
    | _ => none

/-- hubcloud redirect: `var\s+url\s*=\s*['"]([^'"]+)['"]`. -/
def hcVarUrlPat (l : List Char) : Option String :=
  match litMatch "var".data l with
  | none => none
  | some r1 =>
    match r1 with
    | c :: r2 =>
      if c.isWhitespace then
        match litMatch "url".data (wsDrop r2) with
        | none => none
        | some r3 =>
          match wsDrop r3 with
          | '=' :: r4 =>
            match wsDrop r4 with
            | q :: r5 =>
              if quoteChar q then
                let run := r5.takeWhile (fun c => !quoteChar c)
                let rest := r5.dropWhile (fun c => !quoteChar c)
                if run.isEmpty || rest.isEmpty then none else some (String.mk run)
              else none
            | [] => none
          | _ => none
      else none
    | [] => none

/-- hubcloud/gdflix redirect: `location\.replace\(['"]([^'"]+)['"]\)`. -/
def hcLocReplacePat (l : List Char) : Option String :=
  match litMatch "location.replace(".data l with
  | none => none
  | some r1 =>
    match r1 with
    | q :: r2 =>
      if quoteChar q then
        let run := r2.takeWhile (fun c => !quoteChar c)
        let rest := r2.dropWhile (fun c => !quoteChar c)
        if run.isEmpty then none
        else
          match rest with
          | q2 :: ')' :: _ => if quoteChar q2 then some (String.mk run) else none
          | _ => none
      else none
    | [] => none

/-- hubcloud/gdflix redirect: `window\.location\s*=\s*['"]([^'"]+)['"]`. -/
def hcWinLocPat (l : List Char) : Option String :=
  match litMatch "window.location".data l with
  | none => none
  | some r1 =>
    match wsDrop r1 with
    | '=' :: r2 =>
      match wsDrop r2 with
      | q :: r3 =>
        if quoteChar q then
          let run := r3.takeWhile (fun c => !quoteChar c)
          let rest := r3.dropWhile (fun c => !quoteChar c)
          if run.isEmpty || rest.isEmpty then none else some (String.mk run)
        else none
      | [] => none
    | _ => none

/-! ### Data model -/

/-- The `type` union of `StreamLink` (`"m3u8" | "mp4" | "mkv"`). -/
inductive VidType : Type
  | m3u8
  | mp4
  | mkv
deriving DecidableEq, Repr

/-- `StreamLink` — fields in source order: `server`, `link`, `type`,
`quality?`, `headers?`. -/
structure StreamLink : Type where
  server : String
  link : String
  type : VidType
  quality : Option String
  headers : Option (List (String × String))
deriving DecidableEq, Repr

/-- The pixeldrain `/info` JSON shape used by the file-host extractor. -/
structure PixelInfo : Type where
  name : String
  size : Nat
  mime_type : String
deriving DecidableEq, Repr

/-- `CacheEntry<T>` — a value plus the wall-clock time it was stored. -/
structure CacheEntry (T : Type) : Type where
  data : T
  timestamp : Nat
deriving DecidableEq, Repr

/-- One cache store: a JS `Map<string, CacheEntry<T>>`, modelled as an
association list in insertion order (JS `Map` iterates in insertion order,
and `set` on an existing key keeps its position). -/
abbrev CacheMap (T : Type) : Type := List (String × CacheEntry T)

/-- `map.get(key)`. -/
def mapGet {T : Type} (m : CacheMap T) (k : String) : Option (CacheEntry T) :=
  List.lookup k m

/-- `map.has(key)` in effect (used when modelling `map.set`). -/
def containsKey {T : Type} (m : CacheMap T) (k : String) : Bool :=
  m.any (fun p => p.1 == k)

/-- `map.set(key, v)`: overwrite in place when the key exists, else append
(preserving insertion order). -/
def mapSet {T : Type} (m : CacheMap T) (k : String) (v : CacheEntry T) : CacheMap T :=
  if containsKey m k then m.map (fun p => if p.1 == k then (k, v) else p)
  else m ++ [(k, v)]

/-- `map.delete(key)`. -/
def mapDelete {T : Type} (m : CacheMap T) (k : String) : CacheMap T :=
  m.filter (fun p => !(p.1 == k))

/-- `[...map.entries()].sort((a, b) => a[1].timestamp - b[1].timestamp)[0]`:
the first entry (in insertion order, as the sort is stable) with the
smallest timestamp. -/
def findOldest {T : Type} : CacheMap T → Option (String × CacheEntry T)
  | [] => none
  | p :: rest =>
    match findOldest rest with
    | none => some p
    | some q => if q.2.timestamp < p.2.timestamp then some q else some p

/-- `CACHE_TTL` constants (milliseconds). -/
def ttlProviderUrls : Nat := 10 * 60 * 1000
def ttlPosts : Nat := 5 * 60 * 1000
def ttlMeta : Nat := 30 * 60 * 1000
def ttlStreams : Nat := 15 * 60 * 1000

/-- `getCached(map, key, ttl)`: the stored value when present and fresh
(`now - timestamp < ttl`), else `null`.  The source also returns a constant
`cached: true` flag on a hit, which carries no extra information. -/
def getCached {T : Type} (m : CacheMap T) (k : String) (ttl now : Nat) : Option T :=
  match mapGet m k with
  | some e => if now - e.timestamp < ttl then some e.data else none
  | none => none

/-- `setCache(map, key, data)`: when the store already holds more than 1000
entries, first delete the entry with the smallest timestamp, then `set` the
key with the current time `now`. -/
def setCache {T : Type} (m : CacheMap T) (k : String) (d : T) (now : Nat) : CacheMap T :=
  let m1 :=
    if m.length > 1000 then
      match findOldest m with
      | some p => mapDelete m p.1
      | none => m
    else m
  mapSet m1 k ⟨d, now⟩

/-! ### Environment of consumed external interfaces -/

/-- The effectful primitives the engine consumes but does not own (spec §6):
`fetchHtml` (a fetch of a URL's text, `none` on any non-success condition,
headers and timeout abstracted away since the oracle is arbitrary),
`fetchInfoJson` (the `fetchJson` call of the pixeldrain extractor),
`selElems` (the cheerio structural query: for a document and a CSS selector,
the matched elements as (optional `href` attribute, element text) in
document order), plus the ambient `Math.random()`-derived token suffix and
`Date.now()` value used by the doodstream extractor. -/
structure Env : Type where
  fetchHtml : String → Option String
  fetchInfoJson : String → Option PixelInfo
  selElems : String → String → List (Option String × String)
  randToken : String
  nowMs : Nat

/-- `streamType(url)`: classify by lower-cased suffix occurrence. -/
def streamType (url : String) : VidType :=
  if strIncludes (jsToLower url) ".m3u8" then .m3u8
  else if strIncludes (jsToLower url) ".mp4" then .mp4
  else .mkv

/-- `info?.mime_type?.includes("video") ? "mp4" : "mkv"`. -/
def pdKind (info : Option PixelInfo) : VidType :=
  match info with
  | some i => if strIncludes i.mime_type "video" then .mp4 else .mkv
  | none => .mkv

/-! ### Extractors -/

/-- `pixeldrainExtractor`: derive the file id from the URL, optionally read
the metadata endpoint for the media kind, emit the deterministic direct
download URL. -/
def pixeldrainExtractor (env : Env) (url : String) : List StreamLink :=
  match pdFileId url with
  | some fileId =>
    [⟨"Pixeldrain",
      "https://pixeldrain.com/api/file/" ++ fileId ++ "?download",
      pdKind (env.fetchInfoJson ("https://pixeldrain.com/api/file/" ++ fileId ++ "/info")),
      some "HD", none⟩]
  | none => []

/-- `streamtapeExtractor`: primary `robotlink` pattern with optional token,
fallback `norobotlink` two-part pattern used only when the primary found
nothing. -/
def streamtapeExtractor (env : Env) (url : String) : List StreamLink :=
  match env.fetchHtml url with
  | none => []
  | some html =>
    let primary : List StreamLink :=
      match scanFirst stRobotPat html.data with
      | some v =>
        [⟨"Streamtape",
          (match scanFirst stTokenPat html.data with
           | some t => "https:" ++ v ++ "&token=" ++ t
           | none => "https:" ++ v),
          .mp4, some "HD", none⟩]
      | none => []
    match scanFirst stAltPat html.data, primary with
    | some (a, b), [] => [⟨"Streamtape", "https:" ++ a ++ b, .mp4, some "HD", none⟩]
    | _, _ => primary

/-- `doodstreamExtractor`: normalise the domain to `dood.li`, follow the
`pass_md5` endpoint (with the page as referrer), then synthesise the
time-bounded URL from the second response, a random token and the md5 tail. -/
def doodstreamExtractor (env : Env) (url : String) : List StreamLink :=
  let normalizedUrl := doodNormalize url
  match env.fetchHtml normalizedUrl with
  | none => []
  | some html =>
    match scanFirst ddPassPat html.data with
    | some cap =>
      match env.fetchHtml ("https://dood.li/pass_md5/" ++ cap) with
      | some passRes =>
        [⟨"Doodstream",
          passRes ++ ("zUEJeL3mUN" ++ env.randToken) ++ "?token=" ++ lastPiece cap
            ++ "&expiry=" ++ toString env.nowMs,
          .mp4, some "HD", some [("Referer", "https://dood.li/")]⟩]
      | none => []
    | none => []

/-- `filemoonExtractor`: structured `file:`/`sources:` patterns, else the
first bare `.m3u8` URL anywhere in the page. -/
def filemoonExtractor (env : Env) (url : String) : List StreamLink :=
  match env.fetchHtml url with
  | none => []
  | some html =>
    let fromFile : List StreamLink :=
      match
        match scanFirst fmFile1Pat html.data with
        | some v => some v
        | none => scanFirst fmFile2Pat html.data
      with
      | some v => [⟨"Filemoon", v, .m3u8, some "HD", none⟩]
      | none => []
    match fromFile with
    | [] =>
      match scanFirst (fun l => (mediaUrlAt ["m3u8"] l).map Prod.fst) html.data with
      | some u => [⟨"Filemoon", u, .m3u8, some "HD", none⟩]
      | none => []
    | _ => fromFile

/-- `mixdropExtractor`: the `MDCore.wurl` assignment, protocol-relative URLs
made absolute. -/
def mixdropExtractor (env : Env) (url : String) : List StreamLink :=
  match env.fetchHtml url with
  | none => []
  | some html =>
    match scanFirst mdWurlPat html.data with
    | some v =>
      [⟨"Mixdrop", (if jsStarts v "//" then "https:" ++ v else v), .mp4, some "HD", none⟩]
    | none => []

/-- `url.split("/").slice(0, 3).join("/")`. -/
def hcBaseUrl (url : String) : String :=
  String.intercalate "/" ((url.splitOn "/").take 3)

/-- The hubcloud selector list, in priority order. -/
def hcSelectors : List String :=
  [".btn-success.btn-lg", ".btn-success", ".btn-danger", ".btn-primary", ".btn-secondary",
   "a[href*=\"pixeldrain\"]", "a[href*=\"workers.dev\"]", "a[href*=\"hubcdn\"]",
   "a[href*=\"cloudflarestorage\"]", "a[href*=\"r2.dev\"]",
   "a[href*=\".mp4\"]", "a[href*=\".mkv\"]", "a[href*=\".m3u8\"]"]

/-- The hubcloud per-link domain taxonomy (the `if`/`else if` chain inside
the selector loop).  `none` means the link is recorded as processed but no
candidate is pushed. -/
def hcClassify (href : String) : Option StreamLink :=
  if strIncludes href "workers.dev" || (strIncludes href ".dev" && !strIncludes href "/?id=") then
    some ⟨"CfWorker", href, .mkv, some "HD", none⟩
  else if strIncludes href "pixeldrain" then
    some ⟨"Pixeldrain",
      (if pdToken href ≠ "" ∧ ¬ strIncludes href "/api/file/" = true then
        "https://pixeldrain.com/api/file/" ++ pdToken href ++ "?download"
      else href),
      .mkv, some "HD", none⟩
  else if strIncludes href "cloudflarestorage" || strIncludes href "r2.dev"
      || strIncludes href "r2.cloudflarestorage" then
    some ⟨"CfStorage", href, .mkv, some "HD", none⟩
  else if strIncludes href "hubcdn" && !strIncludes href "/?id=" then
    some ⟨"HubCdn", href, .mkv, some "HD", none⟩
  else if ciIncludes href ".mp4" || ciIncludes href ".mkv" || ciIncludes href ".m3u8" then
    some ⟨"Direct", href, streamType href, some "HD", none⟩
  else none

/-- One iteration of the hubcloud selector loop body over an element. -/
def hcStep (acc : List StreamLink × List String) (el : Option String × String) :
    List StreamLink × List String :=
  let href := el.1.getD ""
  if href = "" ∨ href = "#" ∨ href = "javascript:void(0)" ∨ acc.2.contains href = true then acc
  else
    match hcClassify href with
    | some s => (acc.1 ++ [s], href :: acc.2)
    | none => (acc.1, href :: acc.2)

/-- `hubcloudExtractor`: optional (possibly base64-carrying) client-side
redirect, then the selector scan, then the bare media-URL scan. -/
def hubcloudExtractor (env : Env) (url : String) : List StreamLink :=
  let baseUrl := hcBaseUrl url
  match env.fetchHtml url with
  | none => []
  | some html =>
    let redirect :=
      match scanFirst hcVarUrlPat html.data with
      | some t => some t
      | none =>
        match scanFirst hcLocReplacePat html.data with
        | some t => some t
        | none => scanFirst hcWinLocPat html.data
    let targetHtml :=
      match redirect with
      | some t0 =>
        let tA :=
          if strIncludes t0 "r=" then
            (if decodeBase64 (splitIdx1 t0 "r=") = "" then t0
             else decodeBase64 (splitIdx1 t0 "r="))
          else t0
        let tB := if jsStarts tA "/" then baseUrl ++ tA else tA
        let tC := if jsStarts tB "http" then tB else baseUrl ++ "/" ++ tB
        match env.fetchHtml tC with
        | some nh => nh
        | none => html
      | none => html
    let acc1 := hcSelectors.foldl
      (fun acc sel => (env.selElems targetHtml sel).foldl hcStep acc) ([], [])
    let acc2 := (findAllMediaUrls targetHtml.data).foldl
      (fun acc u =>
        if !(acc.2.contains u) && !strIncludes u "example" && !strIncludes u "sample" then
          (acc.1 ++ [⟨"Direct", u, streamType u, some "HD", none⟩], u :: acc.2)
        else acc)
      acc1
    acc2.1

/-- The gdflix selector list. -/
def gdSelectors : List String :=
  [".btn-outline-success", ".btn-success", ".btn-danger", ".btn-primary",
   "a[href*=\"cloudflarestorage\"]", "a[href*=\"r2.dev\"]", "a[href*=\"pixeldrain\"]",
   "a[href*=\"workers.dev\"]", "a[href*=\"streamtape\"]", "a[href*=\"dood\"]",
   "a[href*=\"filemoon\"]", "a[href*=\"mixdrop\"]"]

/-- The gdflix per-link chain (`text` is the element text, already
lower-cased by the caller). -/
def gdClassify (baseUrl href text : String) : Option StreamLink :=
  if strIncludes href "cloudflarestorage" || strIncludes href "r2.dev" then
    some ⟨"R2Storage", href, .mkv, some "HD", none⟩
  else if strIncludes href "pixeldrain" then
    some ⟨"Pixeldrain",
      (if pdToken href ≠ "" then
        "https://pixeldrain.com/api/file/" ++ pdToken href ++ "?download"
      else href),
      .mkv, some "HD", none⟩
  else if strIncludes href "workers.dev" then
    some ⟨"CfWorker", href, .mkv, some "HD", none⟩
  else if strIncludes text "fast" || strIncludes text "gdrive" then
    some ⟨"FastDL", (if jsStarts href "http" then href else baseUrl ++ href),
      .mkv, some "HD", none⟩
  else none

/-- One iteration of the gdflix selector loop body (no
`javascript:void(0)` check in this extractor). -/
def gdStep (baseUrl : String) (acc : List StreamLink × List String)
    (el : Option String × String) : List StreamLink × List String :=
  let href := el.1.getD ""
  if href = "" ∨ href = "#" ∨ acc.2.contains href = true then acc
  else
    match gdClassify baseUrl href (jsToLower el.2) with
    | some s => (acc.1 ++ [s], href :: acc.2)
    | none => (acc.1, href :: acc.2)

/-- `$(sel).attr("href")`: the first matched element's `href`. -/
def attrFirst (env : Env) (h sel : String) : Option String :=
  ((env.selElems h sel).head?).bind (fun e => e.1)

/-- JS `a || b` over optional strings: `undefined` and `""` are falsy. -/
def jsOrS (a b : Option String) : Option String :=
  match a with
  | some s => if s = "" then b else some s
  | none => b

/-- `gdflixExtractor`: redirect-then-scan like hubcloud, a distinct selector
set, a nested hubcloud invocation on an embedded V-Cloud link, a direct
anchor scan for the four embed hosts, then the bare media-URL scan. -/
def gdflixExtractor (env : Env) (url : String) : List StreamLink :=
  let baseUrl := hcBaseUrl url
  match env.fetchHtml url with
  | none => []
  | some html =>
    let redirect :=
      match scanFirst hcLocReplacePat html.data with
      | some t => some t
      | none => scanFirst hcWinLocPat html.data
    let gdHtml :=
      match redirect with
      | some t0 =>
        match env.fetchHtml (if jsStarts t0 "http" then t0 else baseUrl ++ t0) with
        | some nh => nh
        | none => html
      | none => html
    let acc1 := gdSelectors.foldl
      (fun acc sel => (env.selElems gdHtml sel).foldl (gdStep baseUrl) acc) ([], [])
    let hubLink :=
      jsOrS (attrFirst env gdHtml "a:contains(\"V-Cloud\")")
        (jsOrS (attrFirst env gdHtml "a:contains(\"HubCloud\")")
          (jsOrS (attrFirst env gdHtml "a:contains(\"Hub-Cloud\")")
            (jsOrS (attrFirst env gdHtml "a[href*=\"hubcloud\"]")
              (attrFirst env gdHtml "a[href*=\"vcloud\"]"))))
    let acc2 :=
      match hubLink with
      | some hl =>
        if hl ≠ "" ∧ ¬ acc1.2.contains hl = true then
          (acc1.1 ++ hubcloudExtractor env hl, acc1.2)
        else acc1
      | none => acc1
    let acc3 := (env.selElems gdHtml "a[href^=\x27http\x27]").foldl
      (fun acc el =>
        let href := el.1.getD ""
        if acc.2.contains href then acc
        else if strIncludes href "streamtape" then
          (acc.1 ++ [⟨"Streamtape", href, .mp4, some "HD", none⟩], href :: acc.2)
        else if strIncludes href "dood" then
          (acc.1 ++ [⟨"Doodstream", href, .mp4, some "HD", none⟩], href :: acc.2)
        else if strIncludes href "filemoon" then
          (acc.1 ++ [⟨"Filemoon", href, .m3u8, some "HD", none⟩], href :: acc.2)
        else if strIncludes href "mixdrop" then
          (acc.1 ++ [⟨"Mixdrop", href, .mp4, some "HD", none⟩], href :: acc.2)
        else acc)
      acc2
    let acc4 := (findAllMediaUrls gdHtml.data).foldl
      (fun acc u =>
        if !(acc.2.contains u) && !strIncludes u "example" then
          (acc.1 ++ [⟨"Direct", u, streamType u, some "HD", none⟩], u :: acc.2)
        else acc)
      acc3
    acc4.1

/-! ### Resolution orchestrator -/

/-- The deep-resolve treatment of a single candidate: for the four
embed-host servers whose link lacks that host's terminal marker, re-invoke
the host's extractor on the link; a non-empty re-invocation replaces the
candidate, an empty one keeps it; all other candidates pass through. -/
def deepResolveOne (env : Env) (s : StreamLink) : List StreamLink :=
  if s.server == "Streamtape" && !strIncludes s.link "get_video" then
    let resolved := streamtapeExtractor env s.link
    if resolved.length > 0 then resolved else [s]
  else if s.server == "Doodstream" && !strIncludes s.link "pass_md5" then
    let resolved := doodstreamExtractor env s.link
    if resolved.length > 0 then resolved else [s]
  else if s.server == "Filemoon" && !strIncludes s.link ".m3u8" then
    let resolved := filemoonExtractor env s.link
    if resolved.length > 0 then resolved else [s]
  else if s.server == "Mixdrop" && !strIncludes s.link "delivery" then
    let resolved := mixdropExtractor env s.link
    if resolved.length > 0 then resolved else [s]
  else [s]

/-- The deep-resolve loop: each candidate contributes its
`deepResolveOne` block to `deepResolved`, in order. -/
def deepResolve (env : Env) (streams : List StreamLink) : List StreamLink :=
  streams.flatMap (deepResolveOne env)

/-- The host-classification / extractor-dispatch step of `resolveLink`
(source lines 562–584): ordered substring tests on the lower-cased URL, and
the hubcloud-then-gdflix fallback when nothing matches. -/
def extractStep (env : Env) (url : String) : List StreamLink :=
  if strIncludes (jsToLower url) "pixeldrain" then pixeldrainExtractor env url
  else if strIncludes (jsToLower url) "streamtape" then streamtapeExtractor env url
  else if strIncludes (jsToLower url) "dood" then doodstreamExtractor env url
  else if strIncludes (jsToLower url) "filemoon" then filemoonExtractor env url
  else if strIncludes (jsToLower url) "mixdrop" then mixdropExtractor env url
  else if strIncludes (jsToLower url) "gdflix" || strIncludes (jsToLower url) "nexdrive" then
    gdflixExtractor env url
  else if strIncludes (jsToLower url) "hubcloud" || strIncludes (jsToLower url) "vcloud" then
    hubcloudExtractor env url
  else if (hubcloudExtractor env url).length == 0 then gdflixExtractor env url
  else hubcloudExtractor env url

/-- `resolveLink`: cache lookup, dispatch, one deep-resolve pass, and the
cache write of a non-empty final result.  Returns the result together with
the updated stream store (`cache.streams` made explicit). -/
def resolveLink (env : Env) (store : CacheMap (List StreamLink)) (url : String) (now : Nat) :
    List StreamLink × CacheMap (List StreamLink) :=
  match getCached store url ttlStreams now with
  | some data => (data, store)
  | none =>
    let streams := extractStep env url
    let deepResolved := deepResolve env streams
    let finalStreams := if deepResolved.length > 0 then deepResolved else streams
    if finalStreams.length > 0 then (finalStreams, setCache store url finalStreams now)
    else (finalStreams, store)

/-! ### Concrete inputs used by the theorems -/

/-- An environment in which every fetch fails and every structural query is
empty (total network failure). -/
def envAllFail : Env :=
  ⟨fun _ => none, fun _ => none, fun _ _ => [], "", 0⟩

/-- An environment whose only page is a filemoon embed page carrying a
document-relative playlist reference. -/
def envFmX : Env :=
  ⟨fun _ => some "file: \"video.m3u8\"", fun _ => none, fun _ _ => [], "", 0⟩

/-- Distinct cache keys for the eviction analysis. -/
def akey (n : Nat) : String :=
  String.mk (List.replicate n 'a')

/-- The store obtained by `n` successive `setCache` calls with pairwise
distinct keys (key `akey i` stored at time `i`) starting from the empty
store. -/
def fillStore (n : Nat) : CacheMap Unit :=
  (List.range n).foldl (fun m i => setCache m (akey i) () i) []

/-- The final result of a cache-missing `resolveLink` call: the deep-resolve
pass when it produced anything, else the extraction-step result. -/
def finalizeStreams (env : Env) (url : String) : List StreamLink :=
  if (deepResolve env (extractStep env url)).length > 0 then deepResolve env (extractStep env url)
  else extractStep env url

/-! ## Theorems -/

theorem resolveLink_hit {env : Env} {store : CacheMap (List StreamLink)} {url : String}
    {now : Nat} {d : List StreamLink} (h : getCached store url ttlStreams now = some d) :
    resolveLink env store url now = (d, store) := by
  unfold resolveLink
  rw [h]

theorem resolveLink_miss {env : Env} {store : CacheMap (List StreamLink)} {url : String}
    {now : Nat} (h : getCached store url ttlStreams now = none) :
    resolveLink env store url now =
      (finalizeStreams env url,
       if (finalizeStreams env url).length > 0 then setCache store url (finalizeStreams env url) now
       else store) := by
  unfold resolveLink finalizeStreams
  rw [h]
  dsimp only
  split <;> first
  | rfl
  | split <;> rfl

/-- Claim C3: for every key and TTL, `getCached` returns the stored value
exactly when the entry is present and was stored strictly less than the TTL
ago (`now - storedAt < ttl`); once the TTL has elapsed the lookup returns
`null` exactly as if the key were absent, even though the entry still
occupies the map. -/
theorem C3_cache_freshness (T : Type) (m : CacheMap T) (k : String) (ttl now : Nat) :
    (∀ v : T, getCached m k ttl now = some v ↔
      ∃ e, mapGet m k = some e ∧ e.data = v ∧ now - e.timestamp < ttl)
    ∧ (∀ e, mapGet m k = some e → ttl ≤ now - e.timestamp → getCached m k ttl now = none) := by
  constructor
  · intro v
    constructor
    · intro h
      unfold getCached at h
      cases hm : mapGet m k with
      | none => rw [hm] at h; simp at h
      | some e =>
        rw [hm] at h
        dsimp only at h
        by_cases hf : now - e.timestamp < ttl
        · rw [if_pos hf] at h
          exact ⟨e, rfl, Option.some.inj h, hf⟩
        · rw [if_neg hf] at h
          exact absurd h (by simp)
    · rintro ⟨e, hm, hd, hf⟩
      unfold getCached
      rw [hm]
      dsimp only
      rw [if_pos hf, hd]
  · intro e hm hst
    unfold getCached
    rw [hm]
    dsimp only
    rw [if_neg (by omega)]

theorem C3_cache_freshness_witness :
    getCached [("k", (⟨7, 10⟩ : CacheEntry Nat))] "k" 5 12 = some 7
    ∧ getCached [("k", (⟨7, 10⟩ : CacheEntry Nat))] "k" 5 20 = none := by
  refine ⟨((C3_cache_freshness Nat [("k", ⟨7, 10⟩)] "k" 5 12).1 7).mpr
    ⟨⟨7, 10⟩, by decide, rfl, by decide⟩,
    (C3_cache_freshness Nat [("k", ⟨7, 10⟩)] "k" 5 20).2 ⟨7, 10⟩ (by decide) (by decide)⟩

/-- Claim C4: a `resolveLink` call whose final result is empty leaves the
stream store untouched; and on a cache miss a non-empty final result is
written back keyed by the original input URL. -/
theorem C4_no_cache_on_empty (env : Env) (store : CacheMap (List StreamLink)) (url : String)
    (now : Nat) :
    ((resolveLink env store url now).1 = [] → (resolveLink env store url now).2 = store)
    ∧ (getCached store url ttlStreams now = none → (resolveLink env store url now).1 ≠ [] →
        (resolveLink env store url now).2 =
          setCache store url ((resolveLink env store url now).1) now) := by
  cases hc : getCached store url ttlStreams now with
  | some d =>
    rw [resolveLink_hit hc]
    exact ⟨fun _ => rfl, fun h => absurd h (by simp)⟩
  | none =>
    rw [resolveLink_miss hc]
    constructor
    · intro h1
      simp only at h1
      have : (finalizeStreams env url).length = 0 := by rw [h1]; rfl
      simp only [this]
      norm_num
    · intro _ h2
      simp only at h2
      have : (finalizeStreams env url).length > 0 := by
        cases hfe : finalizeStreams env url with
        | nil => exact absurd hfe h2
        | cons a l => simp [hfe]
      simp [this]

theorem C4_no_cache_on_empty_witness :
    (resolveLink envAllFail [] "x" 0).2 = [] := by
  exact (C4_no_cache_on_empty envAllFail [] "x" 0).1 (by decide)

theorem extractStep_pix (env : Env) (url : String)
    (h : strIncludes (jsToLower url) "pixeldrain" = true) :
    extractStep env url = pixeldrainExtractor env url := by
  simp [extractStep, h]

/-- Claim C5: for an input URL matching no host marker, the extraction step
is the hubcloud result when that is non-empty, and otherwise the gdflix
result — i.e. gdflix is invoked exactly when hubcloud returned zero
candidates. -/
theorem C5_unclassified_fallback (env : Env) (url : String)
    (h1 : strIncludes (jsToLower url) "pixeldrain" = false)
    (h2 : strIncludes (jsToLower url) "streamtape" = false)
    (h3 : strIncludes (jsToLower url) "dood" = false)
    (h4 : strIncludes (jsToLower url) "filemoon" = false)
    (h5 : strIncludes (jsToLower url) "mixdrop" = false)
    (h6 : strIncludes (jsToLower url) "gdflix" = false)
    (h7 : strIncludes (jsToLower url) "nexdrive" = false)
    (h8 : strIncludes (jsToLower url) "hubcloud" = false)
    (h9 : strIncludes (jsToLower url) "vcloud" = false) :
    extractStep env url =
      (if hubcloudExtractor env url = [] then gdflixExtractor env url
       else hubcloudExtractor env url) := by
  simp only [extractStep, h1, h2, h3, h4, h5, h6, h7, h8, h9]
  by_cases he : hubcloudExtractor env url = []
  · simp [he]
  · have hlen : (hubcloudExtractor env url).length ≠ 0 := by
      simpa [List.length_eq_zero] using he
    simp [he, hlen]

theorem C5_unclassified_fallback_witness :
    extractStep envAllFail "https://files.example.net/e/x" =
      (if hubcloudExtractor envAllFail "https://files.example.net/e/x" = []
       then gdflixExtractor envAllFail "https://files.example.net/e/x"
       else hubcloudExtractor envAllFail "https://files.example.net/e/x") := by
  exact C5_unclassified_fallback envAllFail _ (by decide) (by decide) (by decide) (by decide)
    (by decide) (by decide) (by decide) (by decide) (by decide)

/-- Claim C7: in the deep-resolve pass, a "Streamtape" candidate whose link
lacks the `get_video` marker is replaced, in place, by exactly what the
streamtape extractor returns on that link, except that an empty
re-invocation keeps the original candidate. -/
theorem C7_streamtape_deep_resolve (env : Env) (pre post : List StreamLink) (c : StreamLink)
    (hs : c.server = "Streamtape") (hl : strIncludes c.link "get_video" = false) :
    deepResolve env (pre ++ c :: post) =
      deepResolve env pre
        ++ (if streamtapeExtractor env c.link = [] then [c] else streamtapeExtractor env c.link)
        ++ deepResolve env post := by
  unfold deepResolve
  rw [List.flatMap_append, List.flatMap_cons, List.append_assoc]
  congr 1
  congr 1
  unfold deepResolveOne
  rw [hs]
  simp only [hl, beq_self_eq_true, Bool.not_false, Bool.and_true, Bool.true_and, if_true,
    reduceIte]
  by_cases hr : streamtapeExtractor env c.link = []
  · simp [hr]
  · simp [hr, List.length_pos.mpr hr]

theorem C7_streamtape_deep_resolve_witness :
    deepResolve envAllFail
        [⟨"Streamtape", "https://streamtape.com/v/xyz", .mp4, some "HD", none⟩] =
      [⟨"Streamtape", "https://streamtape.com/v/xyz", .mp4, some "HD", none⟩] := by
  have h := C7_streamtape_deep_resolve envAllFail [] []
    ⟨"Streamtape", "https://streamtape.com/v/xyz", .mp4, some "HD", none⟩ rfl (by decide)
  rw [show streamtapeExtractor envAllFail "https://streamtape.com/v/xyz" = [] from rfl] at h
  simpa [deepResolve] using h

/-- Claim C9: host classification tests the lower-cased URL against the
markers in the fixed order pixeldrain, streamtape, dood, filemoon, mixdrop,
gdflix/nexdrive, hubcloud/vcloud, and the first matching marker alone
selects the extractor. -/
theorem C9_classifier_precedence (env : Env) (url : String) :
    (strIncludes (jsToLower url) "pixeldrain" = true →
      extractStep env url = pixeldrainExtractor env url)
    ∧ (strIncludes (jsToLower url) "pixeldrain" = false →
       strIncludes (jsToLower url) "streamtape" = true →
      extractStep env url = streamtapeExtractor env url)
    ∧ (strIncludes (jsToLower url) "pixeldrain" = false →
       strIncludes (jsToLower url) "streamtape" = false →
       strIncludes (jsToLower url) "dood" = true →
      extractStep env url = doodstreamExtractor env url)
    ∧ (strIncludes (jsToLower url) "pixeldrain" = false →
       strIncludes (jsToLower url) "streamtape" = false →
       strIncludes (jsToLower url) "dood" = false →
       strIncludes (jsToLower url) "filemoon" = true →
      extractStep env url = filemoonExtractor env url)
    ∧ (strIncludes (jsToLower url) "pixeldrain" = false →
       strIncludes (jsToLower url) "streamtape" = false →
       strIncludes (jsToLower url) "dood" = false →
       strIncludes (jsToLower url) "filemoon" = false →
       strIncludes (jsToLower url) "mixdrop" = true →
      extractStep env url = mixdropExtractor env url)
    ∧ (strIncludes (jsToLower url) "pixeldrain" = false →
       strIncludes (jsToLower url) "streamtape" = false →
       strIncludes (jsToLower url) "dood" = false →
       strIncludes (jsToLower url) "filemoon" = false →
       strIncludes (jsToLower url) "mixdrop" = false →
       (strIncludes (jsToLower url) "gdflix" = true ∨
        strIncludes (jsToLower url) "nexdrive" = true) →
      extractStep env url = gdflixExtractor env url)
    ∧ (strIncludes (jsToLower url) "pixeldrain" = false →
       strIncludes (jsToLower url) "streamtape" = false →
       strIncludes (jsToLower url) "dood" = false →
       strIncludes (jsToLower url) "filemoon" = false →
       strIncludes (jsToLower url) "mixdrop" = false →
       strIncludes (jsToLower url) "gdflix" = false →
       strIncludes (jsToLower url) "nexdrive" = false →
       (strIncludes (jsToLower url) "hubcloud" = true ∨
        strIncludes (jsToLower url) "vcloud" = true) →
      extractStep env url = hubcloudExtractor env url) := by
  refine ⟨fun hA => by simp [extractStep, hA],
    fun h1 hA => by simp [extractStep, h1, hA],
    fun h1 h2 hA => by simp [extractStep, h1, h2, hA],
    fun h1 h2 h3 hA => by simp [extractStep, h1, h2, h3, hA],
    fun h1 h2 h3 h4 hA => by simp [extractStep, h1, h2, h3, h4, hA],
    fun h1 h2 h3 h4 h5 hA => by
      rcases hA with hA | hA <;> simp [extractStep, h1, h2, h3, h4, h5, hA],
    fun h1 h2 h3 h4 h5 h6 h7 hA => by
      rcases hA with hA | hA <;> simp [extractStep, h1, h2, h3, h4, h5, h6, h7, hA]⟩

theorem C9_classifier_precedence_witness :
    extractStep envAllFail "https://dood.hubcloud.example/e/x" =
      doodstreamExtractor envAllFail "https://dood.hubcloud.example/e/x" := by
  exact (C9_classifier_precedence envAllFail "https://dood.hubcloud.example/e/x").2.2.1
    (by decide) (by decide) (by decide)

theorem ite_len_ne_nil (r : List StreamLink) (s : StreamLink) :
    (if 0 < r.length then r else [s]) ≠ [] := by
  split
  · exact List.ne_nil_of_length_pos (by assumption)
  · simp

theorem deepResolveOne_ne_nil (env : Env) (s : StreamLink) : deepResolveOne env s ≠ [] := by
  unfold deepResolveOne
  repeat' split
  all_goals first
  | exact ite_len_ne_nil _ _
  | simp

/-- Claim C10: the deep-resolve pass emits at least one candidate per input
candidate, so it never shrinks a non-empty candidate set to empty, and on a
cache miss the final `resolveLink` result is empty exactly when the
extraction step produced zero candidates. -/
theorem C10_deep_resolve_preserves (env : Env) (store : CacheMap (List StreamLink))
    (url : String) (now : Nat) (hmiss : getCached store url ttlStreams now = none) :
    ((resolveLink env store url now).1 = [] ↔ extractStep env url = [])
    ∧ (∀ streams : List StreamLink, streams ≠ [] → deepResolve env streams ≠ []) := by
  have hne : ∀ streams : List StreamLink, streams ≠ [] → deepResolve env streams ≠ [] := by
    intro streams hs
    cases streams with
    | nil => exact absurd rfl hs
    | cons a l =>
      unfold deepResolve
      rw [List.flatMap_cons]
      simp [deepResolveOne_ne_nil]
  refine ⟨?_, hne⟩
  rw [resolveLink_miss hmiss]
  dsimp only
  by_cases hx : extractStep env url = []
  · have hd : deepResolve env (extractStep env url) = [] := by rw [hx]; rfl
    unfold finalizeStreams
    rw [hd, hx]
    simp
  · have hd : deepResolve env (extractStep env url) ≠ [] := hne _ hx
    have hlen : 0 < (deepResolve env (extractStep env url)).length := List.length_pos.mpr hd
    unfold finalizeStreams
    rw [if_pos hlen]
    exact ⟨fun h => absurd h hd, fun h => absurd h hx⟩

theorem C10_deep_resolve_preserves_witness :
    (resolveLink envAllFail [] "x" 0).1 = [] ↔ extractStep envAllFail "x" = [] := by
  exact (C10_deep_resolve_preserves envAllFail [] "x" 0 rfl).1

theorem pixeldrain_abc (env : Env) :
    pixeldrainExtractor env "https://pixeldrain.com/u/abc123" =
      [⟨"Pixeldrain", "https://pixeldrain.com/api/file/abc123?download",
        pdKind (env.fetchInfoJson "https://pixeldrain.com/api/file/abc123/info"),
        some "HD", none⟩] := by
  unfold pixeldrainExtractor
  rw [show pdFileId "https://pixeldrain.com/u/abc123" = some "abc123" from by decide]
  rfl

/-- Claim C6: resolving the uncached URL `https://pixeldrain.com/u/abc123`
yields exactly one candidate, with server `"Pixeldrain"` and link
`https://pixeldrain.com/api/file/abc123?download` (its media kind is
determined by the optional metadata fetch). -/
theorem C6_pixeldrain_scenario (env : Env) (store : CacheMap (List StreamLink)) (now : Nat)
    (hmiss : getCached store "https://pixeldrain.com/u/abc123" ttlStreams now = none) :
    (resolveLink env store "https://pixeldrain.com/u/abc123" now).1 =
      [⟨"Pixeldrain", "https://pixeldrain.com/api/file/abc123?download",
        pdKind (env.fetchInfoJson "https://pixeldrain.com/api/file/abc123/info"),
        some "HD", none⟩] := by
  rw [resolveLink_miss hmiss]
  dsimp only
  unfold finalizeStreams
  rw [extractStep_pix env _ (by decide), pixeldrain_abc]
  simp [deepResolve, deepResolveOne]

theorem C6_pixeldrain_scenario_witness :
    (resolveLink envAllFail [] "https://pixeldrain.com/u/abc123" 0).1 =
      [⟨"Pixeldrain", "https://pixeldrain.com/api/file/abc123?download", .mkv,
        some "HD", none⟩] := by
  exact C6_pixeldrain_scenario envAllFail [] 0 rfl

theorem listStarts_append (p a b : List Char) (h : listStarts p a = true) :
    listStarts p (a ++ b) = true := by
  induction p generalizing a with
  | nil => rfl
  | cons x xs ih =>
    cases a with
    | nil => simp [listStarts] at h
    | cons y ys =>
      simp only [List.cons_append, listStarts, Bool.and_eq_true] at h ⊢
      exact ⟨h.1, ih ys h.2⟩

theorem str_data_append (a b : String) : (a ++ b).data = a.data ++ b.data := by
  cases a
  cases b
  rfl

theorem jsStarts_append (a b pat : String) (h : jsStarts a pat = true) :
    jsStarts (a ++ b) pat = true := by
  unfold jsStarts at h ⊢
  rw [str_data_append]
  exact listStarts_append _ _ _ h

theorem jsStarts_ne_empty (s pat : String) (hp : pat ≠ "") (h : jsStarts s pat = true) :
    s ≠ "" := by
  intro he
  subst he
  apply hp
  unfold jsStarts at h
  cases pat with
  | mk l =>
    cases l with
    | nil => rfl
    | cons x xs => simp [listStarts] at h

/-- Claim C2 (amended): candidates built by URL synthesis always carry an
explicit scheme — every pixeldrain-extractor link is a non-empty absolute
`https://` URL and every streamtape-extractor link starts with `https:` —
but extractors that copy a matched link verbatim from the document (such as
the filemoon extractor, see the counterexample) may emit relative links. -/
theorem C2_absolute_links_amended (env : Env) (url : String) :
    (∀ s, s ∈ pixeldrainExtractor env url →
      s.link ≠ "" ∧ jsStarts s.link "https://" = true)
    ∧ (∀ s, s ∈ streamtapeExtractor env url →
      s.link ≠ "" ∧ jsStarts s.link "https:" = true) := by
  constructor
  · intro s hs
    unfold pixeldrainExtractor at hs
    cases hf : pdFileId url with
    | none => rw [hf] at hs; simp at hs
    | some fid =>
      rw [hf] at hs
      simp only [List.mem_singleton] at hs
      subst hs
      refine ⟨jsStarts_ne_empty _ "https://" (by decide) ?_, ?_⟩ <;>
        exact jsStarts_append _ _ _ (jsStarts_append _ _ _ (by decide))
  · intro s hs
    unfold streamtapeExtractor at hs
    cases hh : env.fetchHtml url with
    | none => rw [hh] at hs; simp at hs
    | some html =>
      rw [hh] at hs
      dsimp only at hs
      cases hr : scanFirst stRobotPat html.data with
      | none =>
        rw [hr] at hs
        cases ha : scanFirst stAltPat html.data with
        | none => rw [ha] at hs; simp at hs
        | some ab =>
          obtain ⟨a, b⟩ := ab
          rw [ha] at hs
          simp only [List.mem_singleton] at hs
          subst hs
          refine ⟨jsStarts_ne_empty _ "https:" (by decide) ?_, ?_⟩ <;>
            exact jsStarts_append _ _ _ (jsStarts_append _ _ _ (by decide))
      | some v =>
        rw [hr] at hs
        cases ht : scanFirst stTokenPat html.data with
        | none =>
          rw [ht] at hs
          cases ha : scanFirst stAltPat html.data with
          | none =>
            rw [ha] at hs
            simp only [List.mem_singleton] at hs
            subst hs
            refine ⟨jsStarts_ne_empty _ "https:" (by decide) ?_, ?_⟩ <;>
              exact jsStarts_append _ _ _ (by decide)
          | some ab =>
            obtain ⟨a, b⟩ := ab
            rw [ha] at hs
            simp only [List.mem_singleton] at hs
            subst hs
            refine ⟨jsStarts_ne_empty _ "https:" (by decide) ?_, ?_⟩ <;>
              exact jsStarts_append _ _ _ (by decide)
        | some t =>
          rw [ht] at hs
          cases ha : scanFirst stAltPat html.data with
          | none =>
            rw [ha] at hs
            simp only [List.mem_singleton] at hs
            subst hs
            refine ⟨jsStarts_ne_empty _ "https:" (by decide) ?_, ?_⟩ <;>
              exact jsStarts_append _ _ _
                (jsStarts_append _ _ _ (jsStarts_append _ _ _ (by decide)))
          | some ab =>
            obtain ⟨a, b⟩ := ab
            rw [ha] at hs
            simp only [List.mem_singleton] at hs
            subst hs
            refine ⟨jsStarts_ne_empty _ "https:" (by decide) ?_, ?_⟩ <;>
              exact jsStarts_append _ _ _
                (jsStarts_append _ _ _ (jsStarts_append _ _ _ (by decide)))

theorem C2_absolute_links_witness :
    ((⟨"Pixeldrain", "https://pixeldrain.com/api/file/abc123?download", .mkv, some "HD",
        none⟩ : StreamLink).link ≠ "")
    ∧ jsStarts "https://pixeldrain.com/api/file/abc123?download" "https://" = true := by
  exact (C2_absolute_links_amended envAllFail "https://pixeldrain.com/u/abc123").1
    ⟨"Pixeldrain", "https://pixeldrain.com/api/file/abc123?download", .mkv, some "HD", none⟩
    (by decide)

/-- Claim C2 is false as stated: the filemoon extractor copies the matched
`file:` URL verbatim, so on this page it emits the link `"video.m3u8"`,
which contains no scheme separator and is not scheme-relative — a
path-relative link, not an absolute URL resolved against the document
origin. -/
theorem C2_relative_link_counterexample :
    (filemoonExtractor envFmX "https://filemoon.sx/e/abcd").map StreamLink.link
        = ["video.m3u8"]
    ∧ strIncludes "video.m3u8" ":" = false
    ∧ jsStarts "video.m3u8" "//" = false := by decide

/-- Claim C8 (amended): every extractor is a total function into candidate
lists — failures never propagate — and when every page fetch fails each of
the six page-fetching extractors returns the empty sequence.  (The
pixeldrain extractor builds its candidate from the URL alone and still
emits it when its metadata fetch fails; see the counterexample.) -/
theorem C8_failure_absorbed (env : Env) (url : String)
    (hf : ∀ u, env.fetchHtml u = none) :
    streamtapeExtractor env url = [] ∧ doodstreamExtractor env url = []
    ∧ filemoonExtractor env url = [] ∧ mixdropExtractor env url = []
    ∧ hubcloudExtractor env url = [] ∧ gdflixExtractor env url = [] := by
  refine ⟨?_, ?_, ?_, ?_, ?_, ?_⟩
  · simp [streamtapeExtractor, hf]
  · simp [doodstreamExtractor, hf]
  · simp [filemoonExtractor, hf]
  · simp [mixdropExtractor, hf]
  · simp [hubcloudExtractor, hf]
  · simp [gdflixExtractor, hf]

theorem C8_failure_absorbed_witness :
    streamtapeExtractor envAllFail "https://streamtape.com/v/x" = []
    ∧ doodstreamExtractor envAllFail "https://streamtape.com/v/x" = []
    ∧ filemoonExtractor envAllFail "https://streamtape.com/v/x" = []
    ∧ mixdropExtractor envAllFail "https://streamtape.com/v/x" = []
    ∧ hubcloudExtractor envAllFail "https://streamtape.com/v/x" = []
    ∧ gdflixExtractor envAllFail "https://streamtape.com/v/x" = [] := by
  exact C8_failure_absorbed envAllFail "https://streamtape.com/v/x" (fun _ => rfl)

/-- Claim C8 is false as stated: in `envAllFail` every fetch fails, yet the
pixeldrain extractor still emits a (non-empty) candidate constructed from
the URL alone — a failed internal fetch that does not yield an empty
sequence. -/
theorem C8_pixeldrain_counterexample :
    pixeldrainExtractor envAllFail "https://pixeldrain.com/u/abc123" ≠ [] := by decide

theorem akey_inj : Function.Injective akey := by
  intro i j h
  have hd : List.replicate i 'a' = List.replicate j 'a' := congrArg String.data h
  have := congrArg List.length hd
  simpa using this

theorem containsKey_fill (n : Nat) :
    containsKey ((List.range n).map (fun i => (akey i, (⟨(), i⟩ : CacheEntry Unit)))) (akey n)
      = false := by
  apply Bool.eq_false_iff.mpr
  intro hcon
  unfold containsKey at hcon
  rw [List.any_eq_true] at hcon
  obtain ⟨x, hx, hxb⟩ := hcon
  rw [List.mem_map] at hx
  obtain ⟨i, hi, rfl⟩ := hx
  have hak : akey i = akey n := by simpa using hxb
  have := akey_inj hak
  have hlt := List.mem_range.mp hi
  omega

theorem mapSet_absent {T : Type} (m : CacheMap T) (k : String) (v : CacheEntry T)
    (h : containsKey m k = false) : mapSet m k v = m ++ [(k, v)] := by
  unfold mapSet
  rw [h]
  simp

theorem setCache_small {T : Type} (m : CacheMap T) (k : String) (d : T) (now : Nat)
    (h : ¬ m.length > 1000) : setCache m k d now = mapSet m k ⟨d, now⟩ := by
  unfold setCache
  rw [if_neg h]

theorem fillStore_spec : ∀ n, n ≤ 1001 →
    fillStore n = (List.range n).map (fun i => (akey i, (⟨(), i⟩ : CacheEntry Unit))) := by
  intro n
  induction n with
  | zero => intro _; rfl
  | succ n ih =>
    intro h
    have hstep : fillStore (n + 1) = setCache (fillStore n) (akey n) () n := by
      unfold fillStore
      rw [List.range_succ, List.foldl_append]
      rfl
    rw [hstep, ih (by omega)]
    rw [setCache_small _ _ _ _ (by simp; omega)]
    rw [mapSet_absent _ _ _ (containsKey_fill n)]
    rw [List.range_succ, List.map_append]
    rfl

/-- Claim C1 (code bug): from the empty store, 1001 `setCache` calls with
pairwise distinct keys leave the store holding 1001 live entries — the
eviction check (`map.size > 1000`) fires only when the bound is already
exceeded, so `size <= 1000` does not hold after every put, contradicting
both the claim and the repository's own deployment guide ("Cache sizes are
limited to 1000 entries per cache type"). -/
theorem C1_cache_size_bug : (fillStore 1001).length = 1001 := by
  rw [fillStore_spec 1001 (by omega)]
  simp
